import Mathlib

/-!
Shallow embedding of the Emrakul swarm task scheduler (src/emrakul/swarm.py)
and verification of its specification claims.

Python `Task` objects are mutable and aliased: the priority queues, the
id-indexed table and the name-indexed table all hold references to the same
objects.  The embedding makes this explicit with a heap: `Swarm.heap` is the
object store (a task's address is its index), and queues/tables hold
addresses.  External effects (the backend adapter call, the verification
subprocess, wall-clock time) are passed in as explicit parameters.
-/

namespace Emrakul

/-- Priority levels, in the order the Python Enum declares them
(P0 critical first, P3 low last); `get_next_task` iterates them in this
declaration order. -/
inductive Priority where
  | P0
  | P1
  | P2
  | P3
deriving DecidableEq

/-- Numeric value of a priority level (the Python enum value). -/
def Priority.toNat : Priority → Nat
  | .P0 => 0
  | .P1 => 1
  | .P2 => 2
  | .P3 => 3

/-- Python `str.upper()`: uppercase every character. -/
def strUpper (s : String) : String := ⟨s.data.map Char.toUpper⟩

/-- Python `Priority.from_str`: `cls[s.upper()]`; a KeyError on an
unrecognized string is modelled as `none`. -/
def Priority.from_str (s : String) : Option Priority :=
  match strUpper s with
  | "P0" => some .P0
  | "P1" => some .P1
  | "P2" => some .P2
  | "P3" => some .P3
  | _ => none

/-- Task states, as in the Python `TaskStatus` enum. -/
inductive TaskStatus where
  | PENDING
  | IN_PROGRESS
  | COMPLETED
  | FAILED
deriving DecidableEq

/-- The `.value` string of a `TaskStatus` (used by `results`). -/
def TaskStatus.value : TaskStatus → String
  | .PENDING => "pending"
  | .IN_PROGRESS => "in_progress"
  | .COMPLETED => "completed"
  | .FAILED => "failed"

/-- The `result` dict stored on a completed task:
`{"output": result.output, "backend": result.backend}`. -/
structure TaskResult where
  output : String
  backend : String
deriving DecidableEq

/-- The Python `Task` dataclass.  Timestamps are logical times (Nat),
supplied by the environment where the Python code calls `datetime.now()`. -/
structure Task where
  id : String
  name : String
  prompt : String
  backend : String
  priority : Priority
  device : String
  verify : Option String
  dependencies : List String
  status : TaskStatus
  retries : Nat
  max_retries : Nat
  result : Option TaskResult
  error : Option String
  created_at : Nat
  started_at : Option Nat
  completed_at : Option Nat
  context_files : List String
  working_dir : Option String
deriving DecidableEq

/-- Association-list lookup, modelling Python `dict.get` / `in`. -/
def alookup {α : Type} : List (String × α) → String → Option α
  | [], _ => none
  | (k, v) :: rest, key => if k = key then some v else alookup rest key

/-- Association-list insert modelling Python `d[k] = v`: overwrites in
place when the key is present (dict insertion order keeps the original
slot), otherwise appends. -/
def ainsert {α : Type} : List (String × α) → String → α → List (String × α)
  | [], key, v => [(key, v)]
  | (k, w) :: rest, key, v =>
      if k = key then (key, v) :: rest else (k, w) :: ainsert rest key v

/-- The four priority queues (`self.queues`), holding task addresses. -/
structure Queues where
  q0 : List Nat
  q1 : List Nat
  q2 : List Nat
  q3 : List Nat
deriving DecidableEq

def Queues.empty : Queues := ⟨[], [], [], []⟩

def Queues.get (q : Queues) : Priority → List Nat
  | .P0 => q.q0
  | .P1 => q.q1
  | .P2 => q.q2
  | .P3 => q.q3

def Queues.set (q : Queues) : Priority → List Nat → Queues
  | .P0, l => { q with q0 := l }
  | .P1, l => { q with q1 := l }
  | .P2, l => { q with q2 := l }
  | .P3, l => { q with q3 := l }

/-- The `Swarm` object.  `heap` is the task-object store (addresses are
indices); `tasks` and `tasks_by_name` map id/name keys to addresses;
`workers` models `self.workers` (the list of asyncio worker handles) by
their ids. -/
structure Swarm where
  heap : List Task
  queues : Queues
  tasks : List (String × Nat)
  tasks_by_name : List (String × Nat)
  running : Bool
  workers : List Nat
  max_concurrent : Nat
deriving DecidableEq

/-- `Swarm.__init__`. -/
def Swarm.init : Swarm :=
  { heap := []
    queues := Queues.empty
    tasks := []
    tasks_by_name := []
    running := false
    workers := []
    max_concurrent := 10 }

/-- Dereference a task address. -/
def Swarm.taskAt (s : Swarm) (a : Nat) : Option Task := s.heap[a]?

/-- Overwrite the task object stored at an address (a Python field
assignment mutates the object seen through every alias). -/
def Swarm.setTask (s : Swarm) (a : Nat) (t : Task) : Swarm :=
  { s with heap := s.heap.set a t }

/-- `Swarm.add_task`: store in the id table, the name table, and append
to the queue of the task's priority.  Adding allocates a fresh object. -/
def Swarm.add_task (s : Swarm) (t : Task) : Swarm :=
  let a := s.heap.length
  { s with
    heap := s.heap ++ [t]
    tasks := ainsert s.tasks t.id a
    tasks_by_name := ainsert s.tasks_by_name t.name a
    queues := s.queues.set t.priority (s.queues.get t.priority ++ [a]) }

/-- The loop body of `Swarm._deps_satisfied` for one dependency name:
`dep = self.tasks_by_name.get(dep_name)` followed by
`not (not dep or dep.status != COMPLETED)` (a dataclass instance is
always truthy, so "not dep" holds exactly when the name is missing). -/
def depOk (s : Swarm) (dep_name : String) : Bool :=
  match alookup s.tasks_by_name dep_name with
  | some a =>
      match s.heap[a]? with
      | some dep => dep.status == TaskStatus.COMPLETED
      | none => false
  | none => false

/-- `Swarm._deps_satisfied`: every name in `task.dependencies` must
resolve in `tasks_by_name` to a task whose status is COMPLETED (a missing
name yields False, not an error). -/
def Swarm.deps_satisfied (s : Swarm) (t : Task) : Bool :=
  t.dependencies.all fun dep_name => depOk s dep_name

/-- A queue entry is ready when it is PENDING and its dependencies are
satisfied (the two checks of the inner loop of `get_next_task`). -/
def Swarm.ready (s : Swarm) (a : Nat) : Bool :=
  match s.heap[a]? with
  | some t => t.status == TaskStatus.PENDING && s.deps_satisfied t
  | none => false

/-- The inner loop of `get_next_task` over one queue: scan in order,
skip entries that are not ready, pop and return the first ready one. -/
def scanQueue (s : Swarm) : List Nat → Option (Nat × List Nat)
  | [] => none
  | a :: rest =>
      if s.ready a then some (a, rest)
      else
        match scanQueue s rest with
        | some (r, rest') => some (r, a :: rest')
        | none => none

/-- `Swarm.get_next_task`: scan the queues in priority order (P0 first),
each in FIFO order; pop and return the first ready task, or None. -/
def Swarm.get_next_task (s : Swarm) : Option (Nat × Swarm) :=
  match scanQueue s s.queues.q0 with
  | some (a, q) => some (a, { s with queues := { s.queues with q0 := q } })
  | none =>
    match scanQueue s s.queues.q1 with
    | some (a, q) => some (a, { s with queues := { s.queues with q1 := q } })
    | none =>
      match scanQueue s s.queues.q2 with
      | some (a, q) => some (a, { s with queues := { s.queues with q2 := q } })
      | none =>
        match scanQueue s s.queues.q3 with
        | some (a, q) => some (a, { s with queues := { s.queues with q3 := q } })
        | none => none

/-- The outcome of one backend-adapter call as observed by
`execute_task`: either the awaited coroutine raised, or it returned a
WorkerResult with `success`, `output`, `error` and `backend` fields. -/
inductive ExecEvent where
  | raised (msg : String)
  | returned (success : Bool) (output : String) (error : Option String) (backend : String)
deriving DecidableEq

/-- Python truthiness of an optional string (`if task.verify:`): None
and the empty string are falsy. -/
def truthyStr : Option String → Bool
  | some s => !(s = "")
  | none => false

/-- Python `x or d` for an optional string: None and "" fall back. -/
def orDefault (o : Option String) (d : String) : String :=
  match o with
  | some s => if s = "" then d else s
  | none => d

/-- The backend-specific timeout table of `execute_task`
(`timeouts.get(task.backend, 600)`); `none` is "no timeout". -/
def backendTimeout (b : String) : Option Nat :=
  if b = "cursor" then none
  else if b = "codex" then some 600
  else if b = "kimi" then some 300
  else if b = "opencode" then some 180
  else some 600

/-- The fixed timeout (seconds) of the verification subprocess in
`Swarm._verify` (`asyncio.wait_for(proc.communicate(), timeout=60)`). -/
def verify_timeout_seconds : Nat := 60

/-- The try-block of `execute_task` on the in-progress task: route to the
backend (an unrecognized backend raises ValueError before any adapter
call), raise on adapter failure (with the adapter's error or the default
message), run verification when `verify` is truthy (its subprocess outcome
is the `verifyOk` parameter; failure raises), otherwise produce the
result captured on the task. -/
def tryOutcome (t : Task) (ev : ExecEvent) (verifyOk : Bool) : Except String TaskResult :=
  if t.backend = "codex" ∨ t.backend = "kimi" ∨ t.backend = "cursor" ∨ t.backend = "opencode" then
    match ev with
    | .raised msg => .error msg
    | .returned success output error backend =>
        if !success then .error (orDefault error "Task execution failed")
        else if truthyStr t.verify && !verifyOk then .error "Verification failed"
        else .ok ⟨output, backend⟩
  else .error ("Unknown backend: " ++ t.backend)

/-- `Swarm.execute_task`: mark IN_PROGRESS with a start timestamp, run
the try-block; on success mark COMPLETED with result and completion
timestamp; on any exception record the message in `error`, increment
`retries`, and either requeue as PENDING (back of the task's own priority
queue) or mark FAILED with a completion timestamp. -/
def Swarm.execute_task (s : Swarm) (a : Nat) (ev : ExecEvent) (verifyOk : Bool)
    (tStart tFinish : Nat) : Swarm :=
  match s.heap[a]? with
  | none => s
  | some t0 =>
    let t1 := { t0 with status := TaskStatus.IN_PROGRESS, started_at := some tStart }
    let s1 := s.setTask a t1
    match tryOutcome t1 ev verifyOk with
    | .ok r =>
        s1.setTask a
          { t1 with status := TaskStatus.COMPLETED, result := some r,
                    completed_at := some tFinish }
    | .error msg =>
        let t2 := { t1 with error := some msg, retries := t1.retries + 1 }
        if t2.retries < t2.max_retries then
          let t3 := { t2 with status := TaskStatus.PENDING }
          let s2 := s1.setTask a t3
          { s2 with
            queues := s2.queues.set t3.priority (s2.queues.get t3.priority ++ [a]) }
        else
          s1.setTask a
            { t2 with status := TaskStatus.FAILED, completed_at := some tFinish }

/-- The dereferenced values of the id table (`self.tasks.values()`). -/
def Swarm.tableTasks (s : Swarm) : List Task :=
  s.tasks.filterMap fun kv => s.heap[kv.2]?

/-- Per-backend counter record of `status()`. -/
structure BackendCounts where
  pending : Nat
  completed : Nat
  failed : Nat
deriving DecidableEq

/-- One iteration of the `by_backend` loop in `status()`: create the
zeroed entry on first sight of a backend, then bump the counter matching
the task's status (IN_PROGRESS bumps nothing). -/
def bumpBackend (m : List (String × BackendCounts)) (t : Task) :
    List (String × BackendCounts) :=
  let m1 := if (alookup m t.backend).isSome then m else m ++ [(t.backend, ⟨0, 0, 0⟩)]
  match t.status with
  | .PENDING =>
      m1.map fun kv =>
        if kv.1 = t.backend then (kv.1, { kv.2 with pending := kv.2.pending + 1 }) else kv
  | .COMPLETED =>
      m1.map fun kv =>
        if kv.1 = t.backend then (kv.1, { kv.2 with completed := kv.2.completed + 1 }) else kv
  | .FAILED =>
      m1.map fun kv =>
        if kv.1 = t.backend then (kv.1, { kv.2 with failed := kv.2.failed + 1 }) else kv
  | .IN_PROGRESS => m1

/-- The value returned by `status()`. -/
structure SwarmStatus where
  running : Bool
  workers : Nat
  pending : Nat
  in_progress : Nat
  completed : Nat
  failed : Nat
  total : Nat
  by_backend : List (String × BackendCounts)
deriving DecidableEq

/-- `Swarm.status`: counts computed fresh from the task table on each
call (the method reads `self.tasks` and writes nothing). -/
def Swarm.status (s : Swarm) : SwarmStatus :=
  let ts := s.tableTasks
  { running := s.running
    workers := s.workers.length
    pending := ts.countP fun t => t.status == TaskStatus.PENDING
    in_progress := ts.countP fun t => t.status == TaskStatus.IN_PROGRESS
    completed := ts.countP fun t => t.status == TaskStatus.COMPLETED
    failed := ts.countP fun t => t.status == TaskStatus.FAILED
    total := s.tasks.length
    by_backend := ts.foldl bumpBackend [] }

/-- One record of the list returned by `results()`. -/
structure ResultEntry where
  id : String
  name : String
  backend : String
  device : String
  status : String
  result : Option TaskResult
  error : Option String
  retries : Nat
deriving DecidableEq

/-- `Swarm.results`: one record per task in table order, skipping
PENDING tasks unless `include_pending`. -/
def Swarm.results (s : Swarm) (include_pending : Bool) : List ResultEntry :=
  s.tableTasks.filterMap fun t =>
    if !include_pending && t.status == TaskStatus.PENDING then none
    else
      some
        { id := t.id, name := t.name, backend := t.backend, device := t.device,
          status := t.status.value, result := t.result, error := t.error,
          retries := t.retries }

/-- A call of the `status()` method as a state transformer: the body
assigns no attribute of `self`, so the state component is returned
unchanged. -/
def Swarm.status_call (s : Swarm) : Swarm × SwarmStatus := (s, s.status)

/-- A call of the `results()` method as a state transformer: the body
assigns no attribute of `self`, so the state component is returned
unchanged. -/
def Swarm.results_call (s : Swarm) (include_pending : Bool) : Swarm × List ResultEntry :=
  (s, s.results include_pending)

/-- `Swarm.clear`: reset the queues and both tables (heap objects are
not destroyed, they merely become unreachable; `running`, `workers` and
`max_concurrent` are untouched). -/
def Swarm.clear (s : Swarm) : Swarm :=
  { s with queues := Queues.empty, tasks := [], tasks_by_name := [] }

/-- One parsed YAML task declaration, as the dict `Task.from_dict`
receives: `none` fields are absent keys. -/
structure TaskDict where
  name : Option String
  prompt : Option String
  backend : Option String
  priority : Option String
  device : Option String
  verify : Option String
  dependencies : Option (List String)
  context_files : Option (List String)
  working_dir : Option String
deriving DecidableEq

/-- Stand-in for the stable task id of `Task.from_dict`
(`sha256(f"{name}:{prompt[:100]}").hexdigest()[:12]`): like the hash, a
deterministic function of the name and the first 100 characters of the
prompt.  No claim depends on the digest value itself. -/
def task_id_of (name prompt : String) : String :=
  name ++ ":" ++ prompt.take 100

/-- `Task.from_dict`: a KeyError on a missing `name`/`prompt` key or an
unrecognized `priority` string is modelled as `.error`; defaults are
backend "cursor", priority P2, device "local", no verify, no
dependencies. -/
def Task.from_dict (d : TaskDict) : Except String Task :=
  match d.name with
  | none => .error "KeyError: name"
  | some nm =>
    match d.prompt with
    | none => .error "KeyError: prompt"
    | some pr =>
      match Priority.from_str (d.priority.getD "P2") with
      | none => .error ("KeyError: " ++ strUpper (d.priority.getD "P2"))
      | some pri =>
          .ok
            { id := task_id_of nm pr
              name := nm
              prompt := pr
              backend := d.backend.getD "cursor"
              priority := pri
              device := d.device.getD "local"
              verify := d.verify
              dependencies := d.dependencies.getD []
              status := TaskStatus.PENDING
              retries := 0
              max_retries := 3
              result := none
              error := none
              created_at := 0
              started_at := none
              completed_at := none
              context_files := d.context_files.getD []
              working_dir := d.working_dir }

/-- The loop of `add_tasks_from_string`: add tasks one by one; the first
`from_dict` exception propagates, leaving the earlier additions in
place and skipping the rest. -/
def addTasksLoop (s : Swarm) (acc : List Task) :
    List TaskDict → Swarm × Except String (List Task)
  | [] => (s, .ok acc.reverse)
  | d :: rest =>
      match Task.from_dict d with
      | .error e => (s, .error e)
      | .ok t => addTasksLoop (s.add_task t) (t :: acc) rest

/-- `Swarm.add_tasks_from_string` after YAML parsing: iterate the
declarations, `from_dict` each and `add_task` it; returns the mutated
swarm together with either the added tasks or the propagated error. -/
def Swarm.add_tasks_from_string (s : Swarm) (tasks_data : List TaskDict) :
    Swarm × Except String (List Task) :=
  addTasksLoop s [] tasks_data

/-- The operations a caller or worker can apply to the swarm state.
`work` is one iteration of `Swarm._worker_loop`: pull the next ready
task, and if there is one, execute it (with the given adapter event,
verification outcome and timestamps). -/
inductive Op where
  | add (t : Task)
  | work (ev : ExecEvent) (verifyOk : Bool) (tStart tFinish : Nat)
  | clear
deriving DecidableEq

/-- One iteration of `Swarm._worker_loop`. -/
def workStep (ev : ExecEvent) (verifyOk : Bool) (tStart tFinish : Nat) (s : Swarm) : Swarm :=
  match s.get_next_task with
  | some (a, s') => s'.execute_task a ev verifyOk tStart tFinish
  | none => s

def applyOp (s : Swarm) : Op → Swarm
  | .add t => s.add_task t
  | .work ev verifyOk tStart tFinish => workStep ev verifyOk tStart tFinish s
  | .clear => s.clear

def runOps (s : Swarm) (ops : List Op) : Swarm := ops.foldl applyOp s

/-- The tasks a list of operations adds, in order. -/
def addsOf (ops : List Op) : List Task :=
  ops.filterMap fun op => match op with | .add t => some t | _ => none

/-- The addresses the id table binds. -/
def idTableAddrs (s : Swarm) : List Nat := s.tasks.map Prod.snd

/-- The addresses the name table binds. -/
def nameTableAddrs (s : Swarm) : List Nat := s.tasks_by_name.map Prod.snd

/-- The id table and the name table hold the same set of task objects. -/
def tablesAgree (s : Swarm) : Prop :=
  (∀ a ∈ idTableAddrs s, a ∈ nameTableAddrs s) ∧
  (∀ a ∈ nameTableAddrs s, a ∈ idTableAddrs s)

instance (s : Swarm) : Decidable (tablesAgree s) := by
  unfold tablesAgree; infer_instance

/-- All queue entries, in the order `get_next_task` scans them. -/
def allQueues (s : Swarm) : List Nat :=
  s.queues.q0 ++ s.queues.q1 ++ s.queues.q2 ++ s.queues.q3

/-- A swarm holding exactly one freshly added task. -/
def soloPend (t : Task) : Swarm := Swarm.init.add_task t

/-- A swarm holding exactly one task that is no longer queued. -/
def soloDone (t : Task) : Swarm :=
  { heap := [t]
    queues := Queues.empty
    tasks := [(t.id, 0)]
    tasks_by_name := [(t.name, 0)]
    running := false
    workers := []
    max_concurrent := 10 }

/-- A fresh task fixture with the given id, name and priority and the
`from_dict` defaults elsewhere (used for concrete witnesses). -/
def mkTask (idv namev : String) (pri : Priority) : Task :=
  { id := idv
    name := namev
    prompt := "p"
    backend := "cursor"
    priority := pri
    device := "local"
    verify := none
    dependencies := []
    status := TaskStatus.PENDING
    retries := 0
    max_retries := 3
    result := none
    error := none
    created_at := 0
    started_at := none
    completed_at := none
    context_files := []
    working_dir := none }

/-- Witness fixture: a low-priority task added first, then a
critical-priority task, both ready. -/
def wSwarm : Swarm := (Swarm.init.add_task (mkTask "i3" "n3" .P3)).add_task (mkTask "i0" "n0" .P0)

/-- Witness fixture: a task depending on a name absent from the table. -/
def wBlocked : Task := { mkTask "ib" "nb" .P2 with dependencies := ["ghost"] }

/-- Counterexample fixture for C7: two tasks with distinct ids sharing
one name. -/
def ct1 : Task := mkTask "x" "a" .P2

/-- Counterexample fixture for C7: second task with the same name. -/
def ct2 : Task := mkTask "y" "a" .P2

/-- An all-absent task declaration. -/
def emptyDict : TaskDict :=
  { name := none, prompt := none, backend := none, priority := none,
    device := none, verify := none, dependencies := none,
    context_files := none, working_dir := none }

/-- Counterexample fixture for C8: valid declaration before the invalid
one. -/
def dGood1 : TaskDict := { emptyDict with name := some "a", prompt := some "p" }

/-- Counterexample fixture for C8: declaration missing the required
`prompt` field. -/
def dBad : TaskDict := { emptyDict with name := some "b" }

/-- Counterexample fixture for C8: valid declaration after the invalid
one. -/
def dGood2 : TaskDict := { emptyDict with name := some "c", prompt := some "p" }

/-! ## Dispatcher lemmas -/

theorem scanQueue_none_iff (s : Swarm) (q : List Nat) :
    scanQueue s q = none ↔ ∀ a ∈ q, s.ready a = false := by
  induction q with
  | nil => simp [scanQueue]
  | cons x rest ih =>
    cases hx : s.ready x with
    | true =>
      simp only [scanQueue, hx, if_true]
      constructor
      · intro h; exact absurd h (by simp)
      · intro h; exact absurd (h x (by simp)) (by simp [hx])
    | false =>
      simp only [scanQueue, hx]
      constructor
      · intro h a ha
        rcases List.mem_cons.mp ha with rfl | ha'
        · exact hx
        · cases hr : scanQueue s rest with
          | some v => rw [hr] at h; cases v; simp at h
          | none => exact (ih.mp hr) a ha'
      · intro h
        have hr : scanQueue s rest = none :=
          ih.mpr fun a ha => h a (List.mem_cons_of_mem _ ha)
        simp [hr]

theorem scanQueue_some_iff (s : Swarm) (q : List Nat) (a : Nat) (q' : List Nat) :
    scanQueue s q = some (a, q') ↔
      ∃ l1 l2, q = l1 ++ a :: l2 ∧ (∀ b ∈ l1, s.ready b = false) ∧
        s.ready a = true ∧ q' = l1 ++ l2 := by
  induction q generalizing q' with
  | nil =>
    simp only [scanQueue]
    constructor
    · intro h; cases h
    · rintro ⟨l1, l2, h, -⟩; exact absurd h (by simp)
  | cons x rest ih =>
    cases hx : s.ready x with
    | true =>
      simp only [scanQueue, hx, if_true]
      constructor
      · intro h
        simp only [Option.some.injEq, Prod.mk.injEq] at h
        obtain ⟨rfl, rfl⟩ := h
        exact ⟨[], rest, rfl, by simp, hx, rfl⟩
      · rintro ⟨l1, l2, hq, hl1, ha, rfl⟩
        cases l1 with
        | nil => simp at hq; obtain ⟨rfl, rfl⟩ := hq; rfl
        | cons y l1' =>
          have : x = y := by simpa using congrArg (fun l => l.head?) hq
          subst this
          exact absurd (hl1 x (by simp)) (by simp [hx])
    | false =>
      simp only [scanQueue, hx]
      constructor
      · intro h
        cases hr : scanQueue s rest with
        | none => rw [hr] at h; simp at h
        | some v =>
          obtain ⟨r, rest'⟩ := v
          rw [hr] at h
          simp only [Option.some.injEq, Prod.mk.injEq] at h
          obtain ⟨rfl, rfl⟩ := h
          obtain ⟨l1, l2, hq, hl1, ha, rfl⟩ := (ih rest').mp hr
          refine ⟨x :: l1, l2, by simp [hq], ?_, ha, by simp⟩
          intro b hb
          rcases List.mem_cons.mp hb with rfl | hb'
          · exact hx
          · exact hl1 b hb'
      · rintro ⟨l1, l2, hq, hl1, ha, rfl⟩
        cases l1 with
        | nil =>
          simp only [List.nil_append] at hq
          obtain ⟨rfl, rfl⟩ : x = a ∧ rest = l2 := by
            simpa using hq
          exact absurd ha (by simp [hx])
        | cons y l1' =>
          have hxy : x = y := by simpa using congrArg (fun l => l.head?) hq
          subst hxy
          have hrest : rest = l1' ++ a :: l2 := by simpa using hq
          have : scanQueue s rest = some (a, l1' ++ l2) :=
            (ih (l1' ++ l2)).mpr
              ⟨l1', l2, hrest, fun b hb => hl1 b (by simp [hb]), ha, rfl⟩
          simp [this]

/-- Full characterization of `get_next_task`, shared by several claims. -/
theorem dispatch_spec (s : Swarm) :
    (s.get_next_task = none ↔ ∀ a ∈ allQueues s, s.ready a = false)
  ∧ (∀ a s', s.get_next_task = some (a, s') →
      ∃ p l1 l2,
        s.queues.get p = l1 ++ a :: l2 ∧
        (∀ b ∈ l1, s.ready b = false) ∧
        s.ready a = true ∧
        (∀ p', p'.toNat < p.toNat → ∀ b ∈ s.queues.get p', s.ready b = false) ∧
        s' = { s with queues := s.queues.set p (l1 ++ l2) })
  ∧ ((∃ a ∈ s.queues.q0, s.ready a = true) →
      ∃ a s', s.get_next_task = some (a, s') ∧ a ∈ s.queues.q0) := by
  cases h0 : scanQueue s s.queues.q0 with
  | some v =>
    obtain ⟨a0, q0'⟩ := v
    obtain ⟨l1, l2, hq, hl1, ha, rfl⟩ := (scanQueue_some_iff s _ a0 q0').mp h0
    have hmem : a0 ∈ s.queues.q0 := by
      rw [hq]; exact List.mem_append_right _ (by simp)
    have hg : s.get_next_task =
        some (a0, { s with queues := { s.queues with q0 := l1 ++ l2 } }) := by
      simp [Swarm.get_next_task, h0]
    refine ⟨⟨?_, ?_⟩, ?_, ?_⟩
    · intro h; rw [hg] at h; cases h
    · intro h
      exact absurd ha (by simp [h a0 (by simp [allQueues, hmem])])
    · intro a s' h
      rw [hg] at h
      simp only [Option.some.injEq, Prod.mk.injEq] at h
      obtain ⟨rfl, rfl⟩ := h
      refine ⟨.P0, l1, l2, hq, hl1, ha, ?_, rfl⟩
      intro p' hp'
      cases p' <;> simp [Priority.toNat] at hp'
    · intro _
      exact ⟨a0, _, hg, hmem⟩
  | none =>
    have h0' := (scanQueue_none_iff s _).mp h0
    cases h1 : scanQueue s s.queues.q1 with
    | some v =>
      obtain ⟨a1, q1'⟩ := v
      obtain ⟨l1, l2, hq, hl1, ha, rfl⟩ := (scanQueue_some_iff s _ a1 q1').mp h1
      have hmem : a1 ∈ s.queues.q1 := by
        rw [hq]; exact List.mem_append_right _ (by simp)
      have hg : s.get_next_task =
          some (a1, { s with queues := { s.queues with q1 := l1 ++ l2 } }) := by
        simp [Swarm.get_next_task, h0, h1]
      refine ⟨⟨?_, ?_⟩, ?_, ?_⟩
      · intro h; rw [hg] at h; cases h
      · intro h
        exact absurd ha (by simp [h a1 (by simp [allQueues, hmem])])
      · intro a s' h
        rw [hg] at h
        simp only [Option.some.injEq, Prod.mk.injEq] at h
        obtain ⟨rfl, rfl⟩ := h
        refine ⟨.P1, l1, l2, hq, hl1, ha, ?_, rfl⟩
        intro p' hp'
        cases p' <;> first
          | exact h0'
          | simp [Priority.toNat] at hp'
      · rintro ⟨a, hamem, har⟩
        exact absurd har (by simp [h0' a hamem])
    | none =>
      have h1' := (scanQueue_none_iff s _).mp h1
      cases h2 : scanQueue s s.queues.q2 with
      | some v =>
        obtain ⟨a2, q2'⟩ := v
        obtain ⟨l1, l2, hq, hl1, ha, rfl⟩ := (scanQueue_some_iff s _ a2 q2').mp h2
        have hmem : a2 ∈ s.queues.q2 := by
          rw [hq]; exact List.mem_append_right _ (by simp)
        have hg : s.get_next_task =
            some (a2, { s with queues := { s.queues with q2 := l1 ++ l2 } }) := by
          simp [Swarm.get_next_task, h0, h1, h2]
        refine ⟨⟨?_, ?_⟩, ?_, ?_⟩
        · intro h; rw [hg] at h; cases h
        · intro h
          exact absurd ha (by simp [h a2 (by simp [allQueues, hmem])])
        · intro a s' h
          rw [hg] at h
          simp only [Option.some.injEq, Prod.mk.injEq] at h
          obtain ⟨rfl, rfl⟩ := h
          refine ⟨.P2, l1, l2, hq, hl1, ha, ?_, rfl⟩
          intro p' hp'
          cases p' <;> first
            | exact h0'
            | exact h1'
            | simp [Priority.toNat] at hp'
        · rintro ⟨a, hamem, har⟩
          exact absurd har (by simp [h0' a hamem])
      | none =>
        have h2' := (scanQueue_none_iff s _).mp h2
        cases h3 : scanQueue s s.queues.q3 with
        | some v =>
          obtain ⟨a3, q3'⟩ := v
          obtain ⟨l1, l2, hq, hl1, ha, rfl⟩ := (scanQueue_some_iff s _ a3 q3').mp h3
          have hmem : a3 ∈ s.queues.q3 := by
            rw [hq]; exact List.mem_append_right _ (by simp)
          have hg : s.get_next_task =
              some (a3, { s with queues := { s.queues with q3 := l1 ++ l2 } }) := by
            simp [Swarm.get_next_task, h0, h1, h2, h3]
          refine ⟨⟨?_, ?_⟩, ?_, ?_⟩
          · intro h; rw [hg] at h; cases h
          · intro h
            exact absurd ha (by simp [h a3 (by simp [allQueues, hmem])])
          · intro a s' h
            rw [hg] at h
            simp only [Option.some.injEq, Prod.mk.injEq] at h
            obtain ⟨rfl, rfl⟩ := h
            refine ⟨.P3, l1, l2, hq, hl1, ha, ?_, rfl⟩
            intro p' hp'
            cases p' <;> first
              | exact h0'
              | exact h1'
              | exact h2'
              | simp [Priority.toNat] at hp'
          · rintro ⟨a, hamem, har⟩
            exact absurd har (by simp [h0' a hamem])
        | none =>
          have h3' := (scanQueue_none_iff s _).mp h3
          have hg : s.get_next_task = none := by
            simp [Swarm.get_next_task, h0, h1, h2, h3]
          refine ⟨⟨?_, ?_⟩, ?_, ?_⟩
          · intro _ a ha
            simp only [allQueues, List.mem_append] at ha
            rcases ha with ((ha | ha) | ha) | ha
            · exact h0' a ha
            · exact h1' a ha
            · exact h2' a ha
            · exact h3' a ha
          · intro _; exact hg
          · intro a s' h; rw [hg] at h; cases h
          · rintro ⟨a, hamem, har⟩
            exact absurd har (by simp [h0' a hamem])

/-- A dispatched address is ready. -/
theorem get_next_task_ready {s : Swarm} {a : Nat} {s' : Swarm}
    (h : s.get_next_task = some (a, s')) : s.ready a = true := by
  obtain ⟨p, l1, l2, _, _, ha, _, _⟩ := (dispatch_spec s).2.1 a s' h
  exact ha

/-- A ready address dereferences to a PENDING task with satisfied
dependencies. -/
theorem ready_elim {s : Swarm} {a : Nat} {tk : Task}
    (hr : s.ready a = true) (ht : s.heap[a]? = some tk) :
    tk.status = TaskStatus.PENDING ∧ s.deps_satisfied tk = true := by
  unfold Swarm.ready at hr
  rw [ht] at hr
  simp only [Bool.and_eq_true, beq_iff_eq] at hr
  exact hr

/-- Claim C1: for every swarm state, `get_next_task` scans the four
priority queues in strict priority order (P0 critical, P1 high, P2
normal, P3 low) and each queue in FIFO order, removes from its queue and
returns the first task whose status is PENDING and whose dependencies
are all satisfied, and returns None exactly when no such ready task
exists (pending-but-blocked tasks do not make it return one); in
particular, when a critical-priority task is ready (for example while a
low-priority one is ready too), the returned task comes from the
critical queue. -/
theorem C1_get_next_task_spec (s : Swarm) :
    (s.get_next_task = none ↔ ∀ a ∈ allQueues s, s.ready a = false)
  ∧ (∀ a s', s.get_next_task = some (a, s') →
      ∃ p l1 l2,
        s.queues.get p = l1 ++ a :: l2 ∧
        (∀ b ∈ l1, s.ready b = false) ∧
        s.ready a = true ∧
        (∀ p', p'.toNat < p.toNat → ∀ b ∈ s.queues.get p', s.ready b = false) ∧
        s' = { s with queues := s.queues.set p (l1 ++ l2) })
  ∧ ((∃ a ∈ s.queues.q0, s.ready a = true) →
      ∃ a s', s.get_next_task = some (a, s') ∧ a ∈ s.queues.q0) :=
  dispatch_spec s

/-- Witness for C1 at a concrete swarm holding a ready critical task and
a ready low task: the dispatcher returns a task from the critical
queue. -/
theorem C1_witness :
    ∃ a s', wSwarm.get_next_task = some (a, s') ∧ a ∈ wSwarm.queues.q0 :=
  (C1_get_next_task_spec wSwarm).2.2 ⟨1, by decide, by decide⟩

/-- Claim C2: the dependency check succeeds iff every name in
`task.dependencies` refers to a task present in the name table whose
status is COMPLETED; a missing referenced name makes the check fail
rather than raise; and a task returned by the dispatcher always has all
its dependencies satisfied. -/
theorem C2_deps_satisfied_spec (s : Swarm) (t : Task) :
    (s.deps_satisfied t = true ↔
      ∀ n ∈ t.dependencies, ∃ a dep,
        alookup s.tasks_by_name n = some a ∧ s.heap[a]? = some dep ∧
          dep.status = TaskStatus.COMPLETED)
  ∧ (∀ n ∈ t.dependencies, alookup s.tasks_by_name n = none →
      s.deps_satisfied t = false)
  ∧ (∀ a s', s.get_next_task = some (a, s') →
      ∀ tk, s.heap[a]? = some tk → s.deps_satisfied tk = true) := by
  have hdep : ∀ n, depOk s n = true ↔
      ∃ a dep, alookup s.tasks_by_name n = some a ∧ s.heap[a]? = some dep ∧
        dep.status = TaskStatus.COMPLETED := by
    intro n
    unfold depOk
    cases hl : alookup s.tasks_by_name n with
    | none => simp
    | some a =>
      cases hh : s.heap[a]? with
      | none => simp [hh]
      | some dep => simp [hh, beq_iff_eq]
  have hmain : s.deps_satisfied t = true ↔
      ∀ n ∈ t.dependencies, ∃ a dep,
        alookup s.tasks_by_name n = some a ∧ s.heap[a]? = some dep ∧
          dep.status = TaskStatus.COMPLETED := by
    unfold Swarm.deps_satisfied
    rw [List.all_eq_true]
    exact ⟨fun h n hn => (hdep n).mp (h n hn), fun h n hn => (hdep n).mpr (h n hn)⟩
  refine ⟨hmain, ?_, ?_⟩
  · intro n hn hnone
    cases hall : s.deps_satisfied t with
    | false => rfl
    | true =>
      obtain ⟨a, dep, hl, -, -⟩ := hmain.mp hall n hn
      rw [hnone] at hl
      cases hl
  · intro a s' h tk htk
    exact (ready_elim (get_next_task_ready h) htk).2

/-- Witness for C2 at a concrete task whose single dependency name is
absent from the table: the check fails. -/
theorem C2_witness : Swarm.init.deps_satisfied wBlocked = false :=
  (C2_deps_satisfied_spec Swarm.init wBlocked).2.1 "ghost" (by decide) (by decide)

/-! ## Execution lemmas -/

theorem Queues.get_empty (p : Priority) : Queues.empty.get p = [] := by
  cases p <;> rfl

/-- The try-block outcome depends only on the task's backend and verify
fields. -/
theorem tryOutcome_eq (t t' : Task) (hb : t'.backend = t.backend)
    (hv : t'.verify = t.verify) (ev : ExecEvent) (vOk : Bool) :
    tryOutcome t' ev vOk = tryOutcome t ev vOk := by
  unfold tryOutcome
  rw [hb, hv]

/-- `execute_task` when the try-block fails: record the message,
increment retries, and requeue as PENDING at the back of the task's own
priority queue or mark FAILED. -/
theorem execute_task_fail {s : Swarm} {a : Nat} {t : Task} {ev : ExecEvent}
    {vOk : Bool} {tS tF : Nat} {msg : String}
    (ht : s.heap[a]? = some t) (hf : tryOutcome t ev vOk = .error msg) :
    s.execute_task a ev vOk tS tF =
      if t.retries + 1 < t.max_retries then
        { s with
          heap := s.heap.set a
            { t with status := TaskStatus.PENDING, started_at := some tS,
                     error := some msg, retries := t.retries + 1 }
          queues := s.queues.set t.priority (s.queues.get t.priority ++ [a]) }
      else
        { s with
          heap := s.heap.set a
            { t with status := TaskStatus.FAILED, started_at := some tS,
                     error := some msg, retries := t.retries + 1,
                     completed_at := some tF } } := by
  unfold Swarm.execute_task
  simp only [ht]
  have key : tryOutcome
      { t with status := TaskStatus.IN_PROGRESS, started_at := some tS } ev vOk =
      Except.error msg :=
    (tryOutcome_eq t { t with status := TaskStatus.IN_PROGRESS, started_at := some tS }
      rfl rfl ev vOk).trans hf
  rw [key]
  by_cases h : t.retries + 1 < t.max_retries
  · simp [h, Swarm.setTask, List.set_set]
  · simp [h, Swarm.setTask, List.set_set]

/-- `execute_task` when the try-block succeeds: mark COMPLETED, record
the result and the completion timestamp; queues and tables untouched. -/
theorem execute_task_ok {s : Swarm} {a : Nat} {t : Task} {ev : ExecEvent}
    {vOk : Bool} {tS tF : Nat} {r : TaskResult}
    (ht : s.heap[a]? = some t) (hok : tryOutcome t ev vOk = .ok r) :
    s.execute_task a ev vOk tS tF =
      { s with
        heap := s.heap.set a
          { t with status := TaskStatus.COMPLETED, started_at := some tS,
                   result := some r, completed_at := some tF } } := by
  unfold Swarm.execute_task
  simp only [ht]
  have key : tryOutcome
      { t with status := TaskStatus.IN_PROGRESS, started_at := some tS } ev vOk =
      Except.ok r :=
    (tryOutcome_eq t { t with status := TaskStatus.IN_PROGRESS, started_at := some tS }
      rfl rfl ev vOk).trans hok
  rw [key]
  simp [Swarm.setTask, List.set_set]

/-- Dispatching from a single-task swarm pops the task. -/
theorem get_next_solo (u : Task) (hp : u.status = TaskStatus.PENDING)
    (hd : u.dependencies = []) :
    (soloPend u).get_next_task = some (0, soloDone u) := by
  have hready : (soloPend u).ready 0 = true := by
    cases hpri : u.priority <;>
      simp [soloPend, Swarm.add_task, Swarm.init, Queues.set, Queues.get,
        Queues.empty, Swarm.ready, Swarm.deps_satisfied, hp, hd, hpri]
  cases hpri : u.priority <;>
    simp [soloPend, Swarm.add_task, Swarm.init, Queues.set, Queues.get,
      Queues.empty, Swarm.get_next_task, scanQueue, soloDone, hpri,
      Swarm.ready, Swarm.deps_satisfied, hp, hd, ainsert]

/-- One worker iteration on a single-task swarm whose execution fails:
requeue with one more retry, or finish FAILED. -/
theorem workStep_solo_fail {u : Task} {ev : ExecEvent} {vOk : Bool} {tS tF : Nat}
    {msg : String} (hp : u.status = TaskStatus.PENDING) (hd : u.dependencies = [])
    (hf : tryOutcome u ev vOk = .error msg) :
    workStep ev vOk tS tF (soloPend u) =
      if u.retries + 1 < u.max_retries then
        soloPend { u with status := TaskStatus.PENDING, started_at := some tS,
                          error := some msg, retries := u.retries + 1 }
      else
        soloDone { u with status := TaskStatus.FAILED, started_at := some tS,
                          error := some msg, retries := u.retries + 1,
                          completed_at := some tF } := by
  unfold workStep
  simp only [get_next_solo u hp hd]
  rw [@execute_task_fail (soloDone u) 0 u ev vOk tS tF msg rfl hf]
  by_cases h : u.retries + 1 < u.max_retries
  · rw [if_pos h, if_pos h]
    cases hpri : u.priority <;>
      simp [soloDone, soloPend, Swarm.add_task, Swarm.init, Queues.set,
        Queues.get, Queues.empty, ainsert, hpri]
  · rw [if_neg h, if_neg h]
    simp [soloDone]

/-- A worker iteration on a drained single-task swarm does nothing. -/
theorem workStep_soloDone (v : Task) (ev : ExecEvent) (vOk : Bool) (tS tF : Nat) :
    workStep ev vOk tS tF (soloDone v) = soloDone v := by
  unfold workStep
  have hg : (soloDone v).get_next_task = none := by
    simp [Swarm.get_next_task, soloDone, scanQueue]
  rw [hg]

/-- Iterating worker steps on a single task whose every execution
attempt fails drives it to FAILED with `retries = max_retries`. -/
theorem failLoop {ev : ExecEvent} {vOk : Bool} {tS tF : Nat} {msg : String} :
    ∀ (k : Nat) (u : Task), u.status = TaskStatus.PENDING → u.dependencies = [] →
      tryOutcome u ev vOk = .error msg → u.retries < u.max_retries →
      k = u.max_retries - u.retries →
      (workStep ev vOk tS tF)^[k] (soloPend u) =
        soloDone { u with status := TaskStatus.FAILED, retries := u.max_retries,
                          error := some msg, started_at := some tS,
                          completed_at := some tF } := by
  intro k
  induction k with
  | zero => intro u _ _ _ hr hk; omega
  | succ n ih =>
    intro u hp hd hf hr hk
    rw [Function.iterate_succ_apply, workStep_solo_fail hp hd hf]
    by_cases hlt : u.retries + 1 < u.max_retries
    · rw [if_pos hlt]
      have hrec := ih
        { u with status := TaskStatus.PENDING, started_at := some tS,
                 error := some msg, retries := u.retries + 1 }
        rfl hd ((tryOutcome_eq u _ rfl rfl ev vOk).trans hf) hlt
        (by show n = u.max_retries - (u.retries + 1); omega)
      rw [hrec]
    · rw [if_neg hlt]
      have hn : n = 0 := by omega
      have hmax : u.retries + 1 = u.max_retries := by omega
      subst hn
      rw [Function.iterate_zero_apply, hmax]

/-- Executing a task leaves every other heap slot unchanged. -/
theorem execute_task_heap_other (s : Swarm) (b : Nat) (ev : ExecEvent)
    (vOk : Bool) (tS tF : Nat) (a : Nat) (hab : a ≠ b) :
    (s.execute_task b ev vOk tS tF).heap[a]? = s.heap[a]? := by
  unfold Swarm.execute_task
  cases hh : s.heap[b]? with
  | none => rfl
  | some t0 =>
    simp only [hh]
    cases htry : tryOutcome
        { t0 with status := TaskStatus.IN_PROGRESS, started_at := some tS } ev vOk with
    | ok r =>
      simp [Swarm.setTask, List.set_set, List.getElem?_set_ne (Ne.symm hab)]
    | error m =>
      by_cases h : t0.retries + 1 < t0.max_retries
      · simp [h, Swarm.setTask, List.set_set, List.getElem?_set_ne (Ne.symm hab)]
      · simp [h, Swarm.setTask, List.set_set, List.getElem?_set_ne (Ne.symm hab)]

/-- Iterating at least `max_retries` worker steps on a single always-
failing task: the state is the terminal FAILED one, forever. -/
theorem failLoop_forever {ev : ExecEvent} {vOk : Bool} {tS tF : Nat} {msg : String}
    (u : Task) (hp : u.status = TaskStatus.PENDING) (hd : u.dependencies = [])
    (hf : tryOutcome u ev vOk = .error msg) (hr0 : u.retries = 0)
    (hm : 0 < u.max_retries) (j : Nat) :
    (workStep ev vOk tS tF)^[u.max_retries + j] (soloPend u) =
      soloDone { u with status := TaskStatus.FAILED, retries := u.max_retries,
                        error := some msg, started_at := some tS,
                        completed_at := some tF } := by
  induction j with
  | zero =>
    have h := @failLoop ev vOk tS tF msg u.max_retries u hp hd hf
      (by omega) (by omega)
    simpa using h
  | succ n ihj =>
    have hsum : u.max_retries + (n + 1) = (u.max_retries + n) + 1 := rfl
    rw [hsum, Function.iterate_succ_apply', ihj, workStep_soloDone]

/-- A FAILED task object is never mutated again by any operation. -/
theorem failed_frozen (s : Swarm) (a : Nat) (t : Task)
    (ht : s.heap[a]? = some t) (hF : t.status = TaskStatus.FAILED) (op : Op) :
    (applyOp s op).heap[a]? = some t := by
  have halen : a < s.heap.length := by
    by_contra hlen
    rw [List.getElem?_eq_none (by omega)] at ht
    cases ht
  cases op with
  | add u =>
    show (s.add_task u).heap[a]? = some t
    unfold Swarm.add_task
    simp only []
    rw [List.getElem?_append, if_pos halen]
    exact ht
  | clear => exact ht
  | work ev vOk tS tF =>
    show (workStep ev vOk tS tF s).heap[a]? = some t
    unfold workStep
    cases hg : s.get_next_task with
    | none => exact ht
    | some v =>
      obtain ⟨b, s'⟩ := v
      obtain ⟨p, l1, l2, hdec, hl1, hb, hhigh, hs'⟩ := (dispatch_spec s).2.1 b s' hg
      have hba : a ≠ b := by
        intro h
        subst h
        simp [Swarm.ready, ht, hF] at hb
      subst hs'
      rw [execute_task_heap_other _ _ _ _ _ _ _ hba]
      exact ht

/-- Claim C3: on every execution failure (the try-block of
`execute_task` producing an error), `retries` is incremented by one and
`error` is set to the failure message; if the incremented count is still
below `max_retries` the task goes back to PENDING and is appended to the
back of the queue of its own priority level, otherwise it becomes FAILED
with a completion timestamp; consequently a task whose execution fails
on every attempt ends FAILED with `retries = max_retries` after
`max_retries` worker iterations, stays in that state under any further
iterations, and a FAILED task object is never mutated (in particular
never re-enters PENDING) under any later operation. -/
theorem C3_retry_policy :
    (∀ (s : Swarm) (a : Nat) (t : Task) (ev : ExecEvent) (vOk : Bool)
        (tS tF : Nat) (msg : String),
      s.heap[a]? = some t → tryOutcome t ev vOk = .error msg →
      ((t.retries + 1 < t.max_retries →
          s.execute_task a ev vOk tS tF =
            { s with
              heap := s.heap.set a
                { t with status := TaskStatus.PENDING, started_at := some tS,
                         error := some msg, retries := t.retries + 1 }
              queues := s.queues.set t.priority (s.queues.get t.priority ++ [a]) })
        ∧ (¬ t.retries + 1 < t.max_retries →
          s.execute_task a ev vOk tS tF =
            { s with
              heap := s.heap.set a
                { t with status := TaskStatus.FAILED, started_at := some tS,
                         error := some msg, retries := t.retries + 1,
                         completed_at := some tF } })))
  ∧ (∀ (u : Task) (ev : ExecEvent) (vOk : Bool) (tS tF : Nat) (msg : String),
      u.status = TaskStatus.PENDING → u.dependencies = [] →
      tryOutcome u ev vOk = .error msg → u.retries = 0 → 0 < u.max_retries →
      ∀ j, (workStep ev vOk tS tF)^[u.max_retries + j] (soloPend u) =
        soloDone { u with status := TaskStatus.FAILED, retries := u.max_retries,
                          error := some msg, started_at := some tS,
                          completed_at := some tF })
  ∧ (∀ (s : Swarm) (a : Nat) (t : Task), s.heap[a]? = some t →
      t.status = TaskStatus.FAILED → ∀ op, (applyOp s op).heap[a]? = some t) := by
  refine ⟨?_, ?_, ?_⟩
  · intro s a t ev vOk tS tF msg ht hf
    have h := @execute_task_fail s a t ev vOk tS tF msg ht hf
    constructor
    · intro hlt; rw [h, if_pos hlt]
    · intro hlt; rw [h, if_neg hlt]
  · intro u ev vOk tS tF msg hp hd hf hr0 hm j
    exact failLoop_forever u hp hd hf hr0 hm j
  · intro s a t ht hF op
    exact failed_frozen s a t ht hF op

/-- Witness for C3 at a concrete task (`max_retries = 3`, backend
cursor) whose adapter call always raises: three worker iterations end in
FAILED with `retries = 3`, and the state is unchanged from there on. -/
theorem C3_witness :
    (workStep (.raised "boom") true 5 6)^[(mkTask "i" "n" Priority.P2).max_retries + 0]
        (soloPend (mkTask "i" "n" Priority.P2)) =
      soloDone { mkTask "i" "n" Priority.P2 with
                 status := TaskStatus.FAILED,
                 retries := (mkTask "i" "n" Priority.P2).max_retries,
                 error := some "boom", started_at := some 5,
                 completed_at := some 6 } :=
  C3_retry_policy.2.1 (mkTask "i" "n" Priority.P2) (.raised "boom") true 5 6 "boom"
    rfl rfl rfl rfl (by decide) 0

/-- With a truthy verify field, a successful adapter return whose
verification fails produces the same try-block outcome as an adapter
call that raises "Verification failed". -/
theorem tryOutcome_verify_fail (t : Task) (hv : truthyStr t.verify = true)
    (out : String) (err : Option String) (bk : String) (vOk : Bool) :
    tryOutcome t (.returned true out err bk) false =
      tryOutcome t (.raised "Verification failed") vOk := by
  unfold tryOutcome
  by_cases hb : t.backend = "codex" ∨ t.backend = "kimi" ∨
      t.backend = "cursor" ∨ t.backend = "opencode"
  · rw [if_pos hb, if_pos hb]
    simp [hv]
  · rw [if_neg hb, if_neg hb]

/-- A successful adapter return with verification unset (or passing)
yields the captured result. -/
theorem tryOutcome_ok (t : Task)
    (hb : t.backend = "codex" ∨ t.backend = "kimi" ∨
      t.backend = "cursor" ∨ t.backend = "opencode")
    (out : String) (err : Option String) (bk : String) (vOk : Bool)
    (hv : truthyStr t.verify = false ∨ vOk = true) :
    tryOutcome t (.returned true out err bk) vOk = .ok ⟨out, bk⟩ := by
  unfold tryOutcome
  rw [if_pos hb]
  rcases hv with hv | hv <;> simp [hv]

/-- A raising adapter call on a recognized backend fails the try-block
with the raised message. -/
theorem tryOutcome_raised (t : Task) (m : String) (vOk : Bool)
    (hb : t.backend = "codex" ∨ t.backend = "kimi" ∨
      t.backend = "cursor" ∨ t.backend = "opencode") :
    tryOutcome t (.raised m) vOk = .error m := by
  unfold tryOutcome
  rw [if_pos hb]

/-- An unrecognized backend makes the try-block fail with the
ValueError message, whatever the adapter event. -/
theorem tryOutcome_unknown (t : Task) (ev : ExecEvent) (vOk : Bool)
    (hb : ¬(t.backend = "codex" ∨ t.backend = "kimi" ∨
      t.backend = "cursor" ∨ t.backend = "opencode")) :
    tryOutcome t ev vOk = .error ("Unknown backend: " ++ t.backend) := by
  unfold tryOutcome
  rw [if_neg hb]

/-- Two executions whose try-blocks agree produce the same state. -/
theorem execute_task_congr {s : Swarm} {a : Nat} {t : Task}
    {ev1 ev2 : ExecEvent} {v1 v2 : Bool} {tS tF : Nat}
    (ht : s.heap[a]? = some t)
    (h : tryOutcome t ev1 v1 = tryOutcome t ev2 v2) :
    s.execute_task a ev1 v1 tS tF = s.execute_task a ev2 v2 tS tF := by
  unfold Swarm.execute_task
  simp only [ht]
  have e1 := tryOutcome_eq t { t with status := TaskStatus.IN_PROGRESS, started_at := some tS } rfl rfl ev1 v1
  have e2 := tryOutcome_eq t { t with status := TaskStatus.IN_PROGRESS, started_at := some tS } rfl rfl ev2 v2
  rw [e1.trans (h.trans e2.symm)]

/-- Claim C4: the verification command runs under its own fixed short
timeout (60 seconds); when the adapter succeeds and verify is truthy, a
failing verification makes `execute_task` behave exactly as if execution
itself had raised "Verification failed" (so it is retried on the same
budget and, failing every attempt, ends FAILED after `max_retries`
iterations even though execution succeeded); when verify is unset or the
verification passes, the task becomes COMPLETED with the adapter output
and backend captured in `result` and a completion timestamp recorded. -/
theorem C4_verification_spec :
    verify_timeout_seconds = 60
  ∧ (∀ (s : Swarm) (a : Nat) (t : Task) (out : String) (err : Option String)
        (bk : String) (vOk : Bool) (tS tF : Nat),
      s.heap[a]? = some t → truthyStr t.verify = true →
      s.execute_task a (.returned true out err bk) false tS tF =
        s.execute_task a (.raised "Verification failed") vOk tS tF)
  ∧ (∀ (s : Swarm) (a : Nat) (t : Task) (out : String) (err : Option String)
        (bk : String) (vOk : Bool) (tS tF : Nat),
      s.heap[a]? = some t →
      (t.backend = "codex" ∨ t.backend = "kimi" ∨
        t.backend = "cursor" ∨ t.backend = "opencode") →
      (truthyStr t.verify = false ∨ vOk = true) →
      s.execute_task a (.returned true out err bk) vOk tS tF =
        { s with
          heap := s.heap.set a
            { t with status := TaskStatus.COMPLETED, started_at := some tS,
                     result := some ⟨out, bk⟩, completed_at := some tF } })
  ∧ (∀ (u : Task) (out : String) (err : Option String) (bk : String)
        (vOk : Bool) (tS tF : Nat),
      u.status = TaskStatus.PENDING → u.dependencies = [] →
      (u.backend = "codex" ∨ u.backend = "kimi" ∨
        u.backend = "cursor" ∨ u.backend = "opencode") →
      truthyStr u.verify = true → u.retries = 0 → 0 < u.max_retries →
      ∀ j, (workStep (.returned true out err bk) false tS tF)^[u.max_retries + j]
          (soloPend u) =
        soloDone { u with status := TaskStatus.FAILED, retries := u.max_retries,
                          error := some "Verification failed",
                          started_at := some tS, completed_at := some tF }) := by
  refine ⟨rfl, ?_, ?_, ?_⟩
  · intro s a t out err bk vOk tS tF ht hv
    exact execute_task_congr ht (tryOutcome_verify_fail t hv out err bk vOk)
  · intro s a t out err bk vOk tS tF ht hb hv
    exact execute_task_ok ht (tryOutcome_ok t hb out err bk vOk hv)
  · intro u out err bk vOk tS tF hp hd hb hv hr0 hm j
    refine failLoop_forever u hp hd ?_ hr0 hm j
    rw [tryOutcome_verify_fail u hv out err bk true]
    exact tryOutcome_raised u "Verification failed" true hb

/-- Witness fixture for C4: a task with a verify command. -/
def vTask : Task := { mkTask "iv" "nv" Priority.P2 with verify := some "false" }

/-- Witness for C4 at a concrete task with a verify command: executing
a successful adapter return with failing verification equals executing
an adapter exception "Verification failed". -/
theorem C4_witness :
    (soloPend vTask).execute_task 0 (.returned true "out" none "cursor") false 7 8 =
      (soloPend vTask).execute_task 0 (.raised "Verification failed") true 7 8 :=
  C4_verification_spec.2.1 (soloPend vTask) 0 vTask "out" none "cursor" true 7 8
    rfl rfl

/-- Claim C5: a task declaration with any backend string is accepted at
submission (`from_dict` validates only name/prompt/priority, never the
backend); executing a task whose backend is outside
{codex, kimi, cursor, opencode} fails every attempt with the
ValueError message "Unknown backend: ...", each attempt consuming one
retry, so after `max_retries` worker iterations the task is FAILED with
an unknown-backend indication in its `error` field. -/
theorem C5_unknown_backend :
    (∀ n p b : String,
      Task.from_dict { emptyDict with name := some n, prompt := some p, backend := some b } =
        .ok { id := task_id_of n p, name := n, prompt := p, backend := b,
              priority := Priority.P2, device := "local", verify := none,
              dependencies := [], status := TaskStatus.PENDING, retries := 0,
              max_retries := 3, result := none, error := none, created_at := 0,
              started_at := none, completed_at := none, context_files := [],
              working_dir := none })
  ∧ (∀ (t : Task) (ev : ExecEvent) (vOk : Bool),
      ¬(t.backend = "codex" ∨ t.backend = "kimi" ∨
        t.backend = "cursor" ∨ t.backend = "opencode") →
      tryOutcome t ev vOk = .error ("Unknown backend: " ++ t.backend))
  ∧ (∀ (u : Task) (ev : ExecEvent) (vOk : Bool) (tS tF : Nat),
      u.status = TaskStatus.PENDING → u.dependencies = [] →
      ¬(u.backend = "codex" ∨ u.backend = "kimi" ∨
        u.backend = "cursor" ∨ u.backend = "opencode") →
      u.retries = 0 → 0 < u.max_retries →
      ∀ j, (workStep ev vOk tS tF)^[u.max_retries + j] (soloPend u) =
        soloDone { u with status := TaskStatus.FAILED, retries := u.max_retries,
                          error := some ("Unknown backend: " ++ u.backend),
                          started_at := some tS, completed_at := some tF }) := by
  refine ⟨?_, ?_, ?_⟩
  · intro n p b
    rfl
  · intro t ev vOk hb
    exact tryOutcome_unknown t ev vOk hb
  · intro u ev vOk tS tF hp hd hb hr0 hm j
    exact failLoop_forever u hp hd (tryOutcome_unknown u ev vOk hb) hr0 hm j

/-- Witness fixture for C5: a task declared with an unrecognized
backend. -/
def uTask : Task := { mkTask "iu" "nu" Priority.P2 with backend := "gpt" }

/-- Witness for C5 at a concrete task with backend "gpt": after its
three attempts it is FAILED with the unknown-backend error. -/
theorem C5_witness :
    (workStep (.raised "x") true 1 2)^[uTask.max_retries + 0] (soloPend uTask) =
      soloDone { uTask with
                 status := TaskStatus.FAILED,
                 retries := uTask.max_retries,
                 error := some ("Unknown backend: " ++ uTask.backend),
                 started_at := some 1, completed_at := some 2 } :=
  C5_unknown_backend.2.2 uTask (.raised "x") true 1 2 rfl rfl (by decide)
    rfl (by decide) 0

/-! ## Status and table lemmas -/

/-- The four status predicates partition any task list. -/
theorem statusPartition (ts : List Task) :
    ts.countP (fun t => t.status == TaskStatus.PENDING) +
      ts.countP (fun t => t.status == TaskStatus.IN_PROGRESS) +
      ts.countP (fun t => t.status == TaskStatus.COMPLETED) +
      ts.countP (fun t => t.status == TaskStatus.FAILED) = ts.length := by
  induction ts with
  | nil => simp
  | cons t rest ih =>
    simp only [List.countP_cons, List.length_cons]
    cases h : t.status <;> simp [h] <;> omega

/-- When every bound address is valid, the task table dereferences to
one task per entry. -/
theorem deref_length (heap : List Task) :
    ∀ l : List (String × Nat), (∀ kv ∈ l, kv.2 < heap.length) →
      (l.filterMap fun kv => heap[kv.2]?).length = l.length := by
  intro l
  induction l with
  | nil => intro _; rfl
  | cons kv rest ih =>
    intro hwf
    have hkv : kv.2 < heap.length := hwf kv (by simp)
    have hsome : heap[kv.2]? = some heap[kv.2] := List.getElem?_eq_getElem hkv
    simp only [List.filterMap_cons, hsome, List.length_cons]
    rw [ih fun kv' hkv' => hwf kv' (List.mem_cons_of_mem _ hkv')]

/-- Claim C6: `status()` computes its counts fresh from the task table
(it is a pure function of the swarm state), and on every state whose
table addresses are valid (true of all reachable states, since Python
references cannot dangle) the counts satisfy
pending + in_progress + completed + failed = total. -/
theorem C6_status_consistent (s : Swarm)
    (hwf : ∀ kv ∈ s.tasks, kv.2 < s.heap.length) :
    (s.status).pending + (s.status).in_progress + (s.status).completed +
      (s.status).failed = (s.status).total := by
  show (s.tableTasks).countP (fun t => t.status == TaskStatus.PENDING) +
      (s.tableTasks).countP (fun t => t.status == TaskStatus.IN_PROGRESS) +
      (s.tableTasks).countP (fun t => t.status == TaskStatus.COMPLETED) +
      (s.tableTasks).countP (fun t => t.status == TaskStatus.FAILED) =
      s.tasks.length
  rw [statusPartition]
  exact deref_length s.heap s.tasks hwf

/-- Witness for C6 at a concrete two-task swarm. -/
theorem C6_witness :
    (wSwarm.status).pending + (wSwarm.status).in_progress +
      (wSwarm.status).completed + (wSwarm.status).failed =
      (wSwarm.status).total :=
  C6_status_consistent wSwarm (by decide)

/-- Inserting a key absent from an association list appends. -/
theorem ainsert_fresh {α : Type} (l : List (String × α)) (k : String) (v : α)
    (hk : ∀ kv ∈ l, kv.1 ≠ k) : ainsert l k v = l ++ [(k, v)] := by
  induction l with
  | nil => rfl
  | cons kv rest ih =>
    have hne : kv.1 ≠ k := hk kv (by simp)
    unfold ainsert
    rw [if_neg hne]
    simp only [List.cons_append, List.cons.injEq, true_and]
    exact ih fun kv' hkv' => hk kv' (by simp [hkv'])

/-- `execute_task` never touches the id or name tables. -/
theorem execute_task_tables (s : Swarm) (a : Nat) (ev : ExecEvent)
    (vOk : Bool) (tS tF : Nat) :
    (s.execute_task a ev vOk tS tF).tasks = s.tasks ∧
    (s.execute_task a ev vOk tS tF).tasks_by_name = s.tasks_by_name := by
  unfold Swarm.execute_task
  cases hh : s.heap[a]? with
  | none => exact ⟨rfl, rfl⟩
  | some t0 =>
    simp only [hh]
    cases htry : tryOutcome
        { t0 with status := TaskStatus.IN_PROGRESS, started_at := some tS } ev vOk with
    | ok r => exact ⟨rfl, rfl⟩
    | error m =>
      by_cases h : t0.retries + 1 < t0.max_retries <;>
        simp [h, Swarm.setTask]

/-- A worker iteration never touches the id or name tables. -/
theorem workStep_tables (s : Swarm) (ev : ExecEvent) (vOk : Bool) (tS tF : Nat) :
    (workStep ev vOk tS tF s).tasks = s.tasks ∧
    (workStep ev vOk tS tF s).tasks_by_name = s.tasks_by_name := by
  unfold workStep
  cases hg : s.get_next_task with
  | none => exact ⟨rfl, rfl⟩
  | some v =>
    obtain ⟨b, s'⟩ := v
    obtain ⟨p, l1, l2, -, -, -, -, hs'⟩ := (dispatch_spec s).2.1 b s' hg
    subst hs'
    exact execute_task_tables _ b ev vOk tS tF

/-- Invariant carried through any operation sequence: the two tables
bind the same addresses in the same order, and every bound key comes
from some already-added task. -/
theorem tables_inv (ops : List Op) :
    ∀ (s : Swarm) (seen : List Task),
      s.tasks.map Prod.snd = s.tasks_by_name.map Prod.snd →
      (∀ k ∈ s.tasks.map Prod.fst, ∃ t ∈ seen, t.id = k) →
      (∀ k ∈ s.tasks_by_name.map Prod.fst, ∃ t ∈ seen, t.name = k) →
      (seen ++ addsOf ops).Pairwise (fun t u => t.id ≠ u.id ∧ t.name ≠ u.name) →
      (runOps s ops).tasks.map Prod.snd =
        (runOps s ops).tasks_by_name.map Prod.snd := by
  induction ops with
  | nil =>
    intro s seen h1 _ _ _
    simpa [runOps] using h1
  | cons op rest ih =>
    intro s seen h1 h2 h3 hpw
    show (runOps (applyOp s op) rest).tasks.map Prod.snd =
      (runOps (applyOp s op) rest).tasks_by_name.map Prod.snd
    cases op with
    | add t =>
      have hpw' : (seen ++ t :: addsOf rest).Pairwise
          (fun t u => t.id ≠ u.id ∧ t.name ≠ u.name) := by
        simpa [addsOf] using hpw
      have hrel : ∀ u ∈ seen, u.id ≠ t.id ∧ u.name ≠ t.name := by
        intro u hu
        have h := (List.pairwise_append.mp hpw').2.2 u hu t (by simp)
        exact ⟨h.1, h.2⟩
      have hid : ∀ kv ∈ s.tasks, kv.1 ≠ t.id := by
        intro kv hkv
        obtain ⟨u, hu, hui⟩ := h2 kv.1 (List.mem_map_of_mem _ hkv)
        rw [← hui]
        exact (hrel u hu).1
      have hname : ∀ kv ∈ s.tasks_by_name, kv.1 ≠ t.name := by
        intro kv hkv
        obtain ⟨u, hu, hun⟩ := h3 kv.1 (List.mem_map_of_mem _ hkv)
        rw [← hun]
        exact (hrel u hu).2
      apply ih (s.add_task t) (seen ++ [t])
      · show (ainsert s.tasks t.id s.heap.length).map Prod.snd =
          (ainsert s.tasks_by_name t.name s.heap.length).map Prod.snd
        rw [ainsert_fresh s.tasks t.id s.heap.length hid,
          ainsert_fresh s.tasks_by_name t.name s.heap.length hname]
        simp [h1]
      · intro k hk
        rw [show (s.add_task t).tasks = ainsert s.tasks t.id s.heap.length from rfl,
          ainsert_fresh s.tasks t.id s.heap.length hid] at hk
        simp only [List.map_append, List.mem_append, List.map_cons] at hk
        rcases hk with hk | hk
        · obtain ⟨u, hu, hui⟩ := h2 k hk
          exact ⟨u, by simp [hu], hui⟩
        · refine ⟨t, by simp, ?_⟩
          have hkt : k = t.id := by simpa using hk
          exact hkt.symm
      · intro k hk
        rw [show (s.add_task t).tasks_by_name =
            ainsert s.tasks_by_name t.name s.heap.length from rfl,
          ainsert_fresh s.tasks_by_name t.name s.heap.length hname] at hk
        simp only [List.map_append, List.mem_append, List.map_cons] at hk
        rcases hk with hk | hk
        · obtain ⟨u, hu, hun⟩ := h3 k hk
          exact ⟨u, by simp [hu], hun⟩
        · refine ⟨t, by simp, ?_⟩
          have hkt : k = t.name := by simpa using hk
          exact hkt.symm
      · rw [List.append_assoc]
        simpa using hpw'
    | work ev vOk tS tF =>
      obtain ⟨het, hent⟩ := workStep_tables s ev vOk tS tF
      apply ih (applyOp s (.work ev vOk tS tF)) seen
      · show (workStep ev vOk tS tF s).tasks.map Prod.snd =
          (workStep ev vOk tS tF s).tasks_by_name.map Prod.snd
        rw [het, hent]
        exact h1
      · intro k hk
        apply h2
        rw [show (applyOp s (.work ev vOk tS tF)).tasks =
          (workStep ev vOk tS tF s).tasks from rfl, het] at hk
        exact hk
      · intro k hk
        apply h3
        rw [show (applyOp s (.work ev vOk tS tF)).tasks_by_name =
          (workStep ev vOk tS tF s).tasks_by_name from rfl, hent] at hk
        exact hk
      · simpa [addsOf] using hpw
    | clear =>
      apply ih s.clear seen
      · rfl
      · intro k hk; simp [Swarm.clear] at hk
      · intro k hk; simp [Swarm.clear] at hk
      · simpa [addsOf] using hpw

/-- Counterexample to claim C7 as stated: adding two tasks with
distinct ids but one shared name leaves the first task object in the id
table while the name table no longer references it, so the two tables do
not hold the same set of tasks. -/
theorem C7_counterexample :
    ¬ tablesAgree (runOps Swarm.init [Op.add ct1, Op.add ct2]) := by decide

/-- Claim C7 (amended): after every sequence of operations (add_task,
dispatch/retry worker iterations, clear) starting from the empty swarm
in which the added tasks have pairwise distinct ids and pairwise
distinct names, the id-indexed table and the name-indexed table hold
the same set of task objects.  (The unamended claim fails when two
added tasks share a name: see the counterexample.) -/
theorem C7_tables_agree (ops : List Op)
    (hdist : (addsOf ops).Pairwise fun t u => t.id ≠ u.id ∧ t.name ≠ u.name) :
    tablesAgree (runOps Swarm.init ops) := by
  have h := tables_inv ops Swarm.init []
    rfl
    (by intro k hk; simp [Swarm.init] at hk)
    (by intro k hk; simp [Swarm.init] at hk)
    (by simpa using hdist)
  refine ⟨fun a ha => ?_, fun a ha => ?_⟩
  · show a ∈ (runOps Swarm.init ops).tasks_by_name.map Prod.snd
    rw [← h]
    exact ha
  · show a ∈ (runOps Swarm.init ops).tasks.map Prod.snd
    rw [h]
    exact ha

/-- Witness for C7 at a concrete sequence adding two tasks with
distinct ids and names. -/
theorem C7_witness :
    tablesAgree (runOps Swarm.init
      [Op.add (mkTask "w1" "m1" Priority.P1), Op.add (mkTask "w2" "m2" Priority.P2)]) :=
  C7_tables_agree _ (by decide)

/-- The submission loop on an all-valid prefix followed by an invalid
declaration: the valid prefix is added, the error propagates, and
nothing after the invalid declaration is processed. -/
theorem addTasksLoop_append_error (d : TaskDict) (post : List TaskDict)
    (hd : ∃ e, Task.from_dict d = .error e) :
    ∀ (pre : List TaskDict) (s : Swarm) (acc : List Task),
      (∀ d' ∈ pre, ∃ t, Task.from_dict d' = .ok t) →
      ∃ e, addTasksLoop s acc (pre ++ d :: post) =
        ((addTasksLoop s acc pre).1, Except.error e) := by
  intro pre
  induction pre with
  | nil =>
    intro s acc _
    obtain ⟨e, he⟩ := hd
    refine ⟨e, ?_⟩
    show addTasksLoop s acc (d :: post) = (s, Except.error e)
    unfold addTasksLoop
    rw [he]
  | cons d' rest ih =>
    intro s acc hpre
    obtain ⟨t, ht⟩ := hpre d' (by simp)
    obtain ⟨e, he⟩ :=
      ih (s.add_task t) (t :: acc) fun d'' hd'' => hpre d'' (by simp [hd''])
    refine ⟨e, ?_⟩
    show addTasksLoop s acc (d' :: (rest ++ d :: post)) =
      ((addTasksLoop s acc (d' :: rest)).1, Except.error e)
    unfold addTasksLoop
    rw [ht]
    exact he

/-- Counterexample to claim C8 as stated: for the batch
[valid "a", invalid (missing prompt), valid "c"], neither policy the
claim allows holds — it is not the case that all other declarations
were added (name "c" is absent), nor that the whole batch was rejected
(name "a" was added). -/
theorem C8_counterexample :
    ¬ ((((alookup (Swarm.init.add_tasks_from_string
            [dGood1, dBad, dGood2]).1.tasks_by_name "a").isSome ∧
        (alookup (Swarm.init.add_tasks_from_string
            [dGood1, dBad, dGood2]).1.tasks_by_name "c").isSome)) ∨
      (Swarm.init.add_tasks_from_string [dGood1, dBad, dGood2]).1.tasks = []) := by
  decide

/-- Claim C8 (amended): a declaration missing a required field
(name or prompt) makes submission raise at that declaration: every
declaration strictly before the first invalid one has been added, and
the invalid declaration together with every later one is not added —
i.e. submission stops at a position-dependent prefix, rather than
rejecting exactly the one bad task or the whole batch. -/
theorem C8_submission_prefix (s : Swarm) (pre : List TaskDict) (d : TaskDict)
    (post : List TaskDict)
    (hpre : ∀ d' ∈ pre, ∃ t, Task.from_dict d' = .ok t)
    (hd : ∃ e, Task.from_dict d = .error e) :
    ∃ e, s.add_tasks_from_string (pre ++ d :: post) =
      ((s.add_tasks_from_string pre).1, Except.error e) :=
  addTasksLoop_append_error d post hd pre s [] hpre

/-- Witness for C8 at the concrete three-declaration batch: only the
first declaration is added and the KeyError propagates. -/
theorem C8_witness :
    ∃ e, Swarm.init.add_tasks_from_string [dGood1, dBad, dGood2] =
      ((Swarm.init.add_tasks_from_string [dGood1]).1, Except.error e) :=
  C8_submission_prefix Swarm.init [dGood1] dBad [dGood2]
    (fun d' hd' => by
      have hcd : d' = dGood1 := by simpa using hd'
      subst hcd
      exact ⟨_, rfl⟩)
    ⟨"KeyError: prompt", rfl⟩

/-- Claim C9: `status()` and `results(include_pending)` are pure reads:
their method bodies assign no attribute of the swarm, so as state
transformers they return the state unchanged, and calling either
repeatedly with no intervening state change returns identical output
(for `results`, the same list of per-task records carrying id, name,
backend, device, status, result, error and retries). -/
theorem C9_reads_pure (s : Swarm) (include_pending : Bool) :
    s.status_call.1 = s
  ∧ (s.results_call include_pending).1 = s
  ∧ (s.status_call.1).status_call.2 = s.status_call.2
  ∧ ((s.results_call include_pending).1.results_call include_pending).2 =
      (s.results_call include_pending).2 :=
  ⟨rfl, rfl, rfl, rfl⟩

/-- Claim C10: `clear()` empties exactly the four priority queues, the
id-indexed table and the name-indexed table; it is a total function
(never raises, also while the swarm is running) and leaves every other
field unchanged — in particular `running`, `workers`, `max_concurrent`
and the object heap keep their values, so a swarm that was running
before `clear()` is still running with the same workers afterwards. -/
theorem C10_clear_frame (s : Swarm) :
    s.clear = { s with queues := Queues.empty, tasks := [], tasks_by_name := [] }
  ∧ s.clear.queues.q0 = [] ∧ s.clear.queues.q1 = [] ∧ s.clear.queues.q2 = []
  ∧ s.clear.queues.q3 = [] ∧ s.clear.tasks = [] ∧ s.clear.tasks_by_name = []
  ∧ s.clear.running = s.running ∧ s.clear.workers = s.workers
  ∧ s.clear.max_concurrent = s.max_concurrent ∧ s.clear.heap = s.heap :=
  ⟨rfl, rfl, rfl, rfl, rfl, rfl, rfl, rfl, rfl, rfl, rfl⟩

end Emrakul
